import Mathlib

/-!
Verification of the CUDA execution-state subsystem (`cuda.go`): the
launch-geometry calculator `ElemGridSize`, the memory arena `Get`/`Put`,
the flush routine `DoWork`, the registry lifecycle `init`/`initFail`, the
work-signal fan-in `collectWork`, and the kernel-source registry
`AddToStdLib`.  Go slices are embedded as `List`, Go maps as association
lists or lookup functions, Go `int` as `Nat` (or `Int` where negative
values matter), and a Go runtime fault (out-of-range slice index, write to
a nil map) as an explicit `fault` outcome.
-/

/-! ## Launch geometry: `calcBlocks` and `ElemGridSize` -/

/-- Embedding of `calcBlocks`: `(n + maxThreads - 1) / maxThreads`
(Go integer division on nonnegative operands is floor division). -/
def calcBlocks (n maxThreads : Nat) : Nat :=
  (n + maxThreads - 1) / maxThreads

/-- The six named results of `ElemGridSize`. -/
structure GridBlockDims where
  gridDimX : Nat
  gridDimY : Nat
  gridDimZ : Nat
  blockDimX : Nat
  blockDimY : Nat
  blockDimZ : Nat
deriving DecidableEq, Repr

/-- Embedding of the core of `ExternMetadata.ElemGridSize`, once the four
capability attributes for the device have been read: the five-way case
ladder over `blocks := calcBlocks n maxThreads`. -/
def elemGridSize (n maxThreads maxGridX maxGridY maxGridZ : Nat) : GridBlockDims :=
  let blocks := calcBlocks n maxThreads
  if blocks = 1 then
    { gridDimX := 1, gridDimY := 1, gridDimZ := 1,
      blockDimX := n, blockDimY := 1, blockDimZ := 1 }
  else if blocks ≥ maxGridX * maxGridY * maxGridZ then
    -- "what kind of monstrosity is this??!": all dimensions stay 1
    { gridDimX := 1, gridDimY := 1, gridDimZ := 1,
      blockDimX := 1, blockDimY := 1, blockDimZ := 1 }
  else if blocks ≥ maxGridX * maxGridY then
    { gridDimX := maxGridX, gridDimY := maxGridY,
      gridDimZ := calcBlocks (blocks % (maxGridX * maxGridY)) maxGridZ,
      blockDimX := maxThreads, blockDimY := 1, blockDimZ := 1 }
  else if blocks ≥ maxGridX then
    { gridDimX := maxGridX,
      gridDimY := calcBlocks (blocks % maxGridX) maxGridY, gridDimZ := 1,
      blockDimX := maxThreads, blockDimY := 1, blockDimZ := 1 }
  else
    { gridDimX := blocks, gridDimY := 1, gridDimZ := 1,
      blockDimX := maxThreads, blockDimY := 1, blockDimZ := 1 }

/-- Ceiling division as the specification describes it: `ceil(a / b)`. -/
def ceilDivSpec (a b : Nat) : Nat :=
  if a % b = 0 then a / b else a / b + 1

/-- The launch-geometry calculator written from the specification's words
(the five-way case ladder with ceiling division), to be compared with
`elemGridSize`, which is translated from the source. -/
def elemGridSizeSpecLadder (n maxThreads maxGridX maxGridY maxGridZ : Nat) : GridBlockDims :=
  let blocks := ceilDivSpec n maxThreads
  if blocks = 1 then
    { gridDimX := 1, gridDimY := 1, gridDimZ := 1,
      blockDimX := n, blockDimY := 1, blockDimZ := 1 }
  else if blocks ≥ maxGridX * maxGridY * maxGridZ then
    { gridDimX := 1, gridDimY := 1, gridDimZ := 1,
      blockDimX := 1, blockDimY := 1, blockDimZ := 1 }
  else if blocks ≥ maxGridX * maxGridY then
    { gridDimX := maxGridX, gridDimY := maxGridY,
      gridDimZ := ceilDivSpec (blocks % (maxGridX * maxGridY)) maxGridZ,
      blockDimX := maxThreads, blockDimY := 1, blockDimZ := 1 }
  else if blocks ≥ maxGridX then
    { gridDimX := maxGridX,
      gridDimY := ceilDivSpec (blocks % maxGridX) maxGridY, gridDimZ := 1,
      blockDimX := maxThreads, blockDimY := 1, blockDimZ := 1 }
  else
    { gridDimX := blocks, gridDimY := 1, gridDimZ := 1,
      blockDimX := maxThreads, blockDimY := 1, blockDimZ := 1 }

/-- Product of all six dimensions of a launch geometry. -/
def dimsProduct (r : GridBlockDims) : Nat :=
  r.gridDimX * r.gridDimY * r.gridDimZ * r.blockDimX * r.blockDimY * r.blockDimZ

/-- Each returned dimension is within the device's declared maximum. -/
def dimsWithinCaps (r : GridBlockDims) (maxThreads maxGridX maxGridY maxGridZ : Nat) : Prop :=
  r.gridDimX ≤ maxGridX ∧ r.gridDimY ≤ maxGridY ∧ r.gridDimZ ≤ maxGridZ ∧
    r.blockDimX ≤ maxThreads

/-- Embedding of the capability lookup performed at the top of
`ExternMetadata.ElemGridSize` against the per-device capability slices.
The source's guard `if dev > len(md.warp)` has an empty body (a no-op),
after which `md.mtpb[dev]`, `md.mgdx[dev]`, `md.mgdy[dev]` and
`md.mgdz[dev]` are read unconditionally; a Go out-of-range slice index is
a runtime fault, modelled as `none`. -/
def elemGridSizeMeta (warp mtpb mgdx mgdy mgdz : List Nat) (n dev : Nat) :
    Option GridBlockDims :=
  let _deadGuard : Prop := dev > warp.length
  match mtpb.get? dev, mgdx.get? dev, mgdy.get? dev, mgdz.get? dev with
  | some maxThreads, some maxGridX, some maxGridY, some maxGridZ =>
      some (elemGridSize n maxThreads maxGridX maxGridY maxGridZ)
  | _, _, _, _ => none

/-! ### Arithmetic facts about `calcBlocks` -/

theorem calcBlocks_eq_ceilDivSpec (a b : Nat) (hb : 1 ≤ b) :
    calcBlocks a b = ceilDivSpec a b := by
  unfold calcBlocks ceilDivSpec
  have h1 := Nat.div_add_mod a b
  have hlt : a % b < b := Nat.mod_lt _ (by omega)
  rcases eq_or_ne (a % b) 0 with h | h
  · rw [if_pos h]
    have ha : a + b - 1 = b * (a / b) + (b - 1) := by omega
    rw [ha, Nat.mul_add_div (by omega : 0 < b)]
    have hz : (b - 1) / b = 0 := Nat.div_eq_of_lt (by omega)
    omega
  · rw [if_neg h]
    have hmul : b * (a / b + 1) = b * (a / b) + b := by ring
    have ha : a + b - 1 = b * (a / b + 1) + (a % b - 1) := by omega
    rw [ha, Nat.mul_add_div (by omega : 0 < b)]
    have hz : (a % b - 1) / b = 0 := Nat.div_eq_of_lt (by omega)
    omega

theorem le_mul_calcBlocks (a b : Nat) (hb : 1 ≤ b) : a ≤ b * calcBlocks a b := by
  unfold calcBlocks
  have h1 := Nat.div_add_mod (a + b - 1) b
  have h2 : (a + b - 1) % b < b := Nat.mod_lt _ (by omega)
  generalize b * ((a + b - 1) / b) = t at h1 ⊢
  omega

theorem calcBlocks_pos (a b : Nat) (ha : 1 ≤ a) (hb : 1 ≤ b) :
    1 ≤ calcBlocks a b := by
  unfold calcBlocks
  rw [Nat.one_le_div_iff (by omega)]
  omega

theorem calcBlocks_eq_one_iff (a b : Nat) (hb : 1 ≤ b) :
    calcBlocks a b = 1 ↔ 1 ≤ a ∧ a ≤ b := by
  unfold calcBlocks
  constructor
  · intro h
    have hge : 1 ≤ (a + b - 1) / b := by omega
    have hlt : (a + b - 1) / b < 2 := by omega
    rw [Nat.one_le_div_iff (by omega)] at hge
    rw [Nat.div_lt_iff_lt_mul (by omega)] at hlt
    omega
  · rintro ⟨h1, h2⟩
    have hge : 1 ≤ (a + b - 1) / b := by
      rw [Nat.one_le_div_iff (by omega)]; omega
    have hlt : (a + b - 1) / b < 2 := by
      rw [Nat.div_lt_iff_lt_mul (by omega)]; omega
    omega

theorem elemGridSize_small_case (n maxThreads maxGridX maxGridY maxGridZ : Nat)
    (hmt : 1 ≤ maxThreads) (hgX : 1 ≤ maxGridX) (hgY : 1 ≤ maxGridY) (hgZ : 1 ≤ maxGridZ)
    (h1 : calcBlocks n maxThreads = 1) :
    n ≤ dimsProduct (elemGridSize n maxThreads maxGridX maxGridY maxGridZ) ∧
    dimsWithinCaps (elemGridSize n maxThreads maxGridX maxGridY maxGridZ)
      maxThreads maxGridX maxGridY maxGridZ := by
  have hn2 : n ≤ maxThreads := ((calcBlocks_eq_one_iff n maxThreads hmt).1 h1).2
  unfold elemGridSize
  rw [h1]
  simp [dimsProduct, dimsWithinCaps]
  omega

/-- C1 counterexample: with `maxThreadsPerBlock = maxGridX = maxGridY = maxGridZ = 1`
and `n = 2`, the saturated-default case fires and the returned tuple has
product `1 < 2`, so the claimed bound `gridX·gridY·gridZ·blockX·blockY·blockZ ≥ n`
fails. -/
theorem elemGridSize_product_counterexample :
    elemGridSize 2 1 1 1 1 = ⟨1, 1, 1, 1, 1, 1⟩ ∧
    dimsProduct (elemGridSize 2 1 1 1 1) < 2 := by
  exact ⟨rfl, by decide⟩

/-- C1 (amended): for `n ≥ 1` and capability attributes all `≥ 1`, whenever
`blocks = ceil(n / maxThreadsPerBlock)` is `1` or is below `maxGridX`
(so the saturated-overflow and the two remainder-spreading cases do not
fire), the tuple returned by `ElemGridSize` satisfies
`gridX·gridY·gridZ·blockX·blockY·blockZ ≥ n` and each dimension is within
its device's declared maximum. -/
theorem elemGridSize_product_ge_and_within_caps
    (n maxThreads maxGridX maxGridY maxGridZ : Nat)
    (hn : 1 ≤ n) (hmt : 1 ≤ maxThreads) (hgX : 1 ≤ maxGridX)
    (hgY : 1 ≤ maxGridY) (hgZ : 1 ≤ maxGridZ)
    (hsmall : calcBlocks n maxThreads = 1 ∨ calcBlocks n maxThreads < maxGridX) :
    n ≤ dimsProduct (elemGridSize n maxThreads maxGridX maxGridY maxGridZ) ∧
    dimsWithinCaps (elemGridSize n maxThreads maxGridX maxGridY maxGridZ)
      maxThreads maxGridX maxGridY maxGridZ := by
  rcases eq_or_ne (calcBlocks n maxThreads) 1 with h1 | hne
  · exact elemGridSize_small_case n maxThreads maxGridX maxGridY maxGridZ hmt hgX hgY hgZ h1
  rcases hsmall with h1 | hlt
  · exact absurd h1 hne
  have hXY : maxGridX ≤ maxGridX * maxGridY := by
    calc maxGridX = maxGridX * 1 := (Nat.mul_one _).symm
    _ ≤ maxGridX * maxGridY := Nat.mul_le_mul (le_refl _) hgY
  have hXYZ : maxGridX ≤ maxGridX * maxGridY * maxGridZ := by
    calc maxGridX ≤ maxGridX * maxGridY := hXY
    _ = maxGridX * maxGridY * 1 := (Nat.mul_one _).symm
    _ ≤ maxGridX * maxGridY * maxGridZ := Nat.mul_le_mul (le_refl _) hgZ
  have hprod := le_mul_calcBlocks n maxThreads hmt
  unfold elemGridSize
  rw [if_neg hne, if_neg (by omega : ¬ calcBlocks n maxThreads ≥ maxGridX * maxGridY * maxGridZ),
    if_neg (by omega : ¬ calcBlocks n maxThreads ≥ maxGridX * maxGridY),
    if_neg (by omega : ¬ calcBlocks n maxThreads ≥ maxGridX)]
  refine ⟨?_, ?_, ?_, ?_, ?_⟩
  · calc n ≤ maxThreads * calcBlocks n maxThreads := hprod
    _ = dimsProduct ⟨calcBlocks n maxThreads, 1, 1, maxThreads, 1, 1⟩ := by
        simp [dimsProduct]; ring
  · simpa using Nat.le_of_lt hlt
  · simpa using hgY
  · simpa using hgZ
  · simp

/-- C1 (amended) witness: at `n = 5`, `maxThreadsPerBlock = 2`,
`maxGridX = 10`, `maxGridY = maxGridZ = 1`, the side conditions hold and
the amended bound is obtained by applying the theorem. -/
theorem elemGridSize_product_ge_and_within_caps_witness :
    5 ≤ dimsProduct (elemGridSize 5 2 10 1 1) ∧
    dimsWithinCaps (elemGridSize 5 2 10 1 1) 2 10 1 1 :=
  elemGridSize_product_ge_and_within_caps 5 2 10 1 1 (by decide) (by decide)
    (by decide) (by decide) (by decide) (Or.inr (by decide))

/-- C3: `ElemGridSize` computes `blocks` by integer ceiling division and
follows exactly the five-way case ladder of the specification in order
(it agrees with `elemGridSizeSpecLadder`, the ladder written from the
spec's words); in particular for every `1 ≤ n ≤ maxThreadsPerBlock` the
result is exactly `(1,1,1,n,1,1)`. -/
theorem elemGridSize_eq_spec_ladder
    (n maxThreads maxGridX maxGridY maxGridZ : Nat)
    (hmt : 1 ≤ maxThreads) (hgY : 1 ≤ maxGridY) (hgZ : 1 ≤ maxGridZ) :
    elemGridSize n maxThreads maxGridX maxGridY maxGridZ =
      elemGridSizeSpecLadder n maxThreads maxGridX maxGridY maxGridZ ∧
    (1 ≤ n → n ≤ maxThreads →
      elemGridSize n maxThreads maxGridX maxGridY maxGridZ =
        ⟨1, 1, 1, n, 1, 1⟩) := by
  constructor
  · simp only [elemGridSize, elemGridSizeSpecLadder,
      calcBlocks_eq_ceilDivSpec _ _ hmt, calcBlocks_eq_ceilDivSpec _ _ hgY,
      calcBlocks_eq_ceilDivSpec _ _ hgZ]
  · intro hn1 hn2
    have h1 : calcBlocks n maxThreads = 1 :=
      (calcBlocks_eq_one_iff n maxThreads hmt).2 ⟨hn1, hn2⟩
    unfold elemGridSize
    rw [h1]
    simp

/-- C3 witness: the ladder agreement and the `n ≤ maxThreadsPerBlock`
corollary at `n = 3`, `maxThreadsPerBlock = 4`, grid maxima `2`. -/
theorem elemGridSize_eq_spec_ladder_witness :
    (elemGridSize 3 4 2 2 2 = elemGridSizeSpecLadder 3 4 2 2 2 ∧
      (1 ≤ 3 → 3 ≤ 4 → elemGridSize 3 4 2 2 2 = ⟨1, 1, 1, 3, 1, 1⟩)) :=
  elemGridSize_eq_spec_ladder 3 4 2 2 2 (by decide) (by decide) (by decide)

/-- C4: the out-of-range guard at the top of `ElemGridSize` has an empty
body, so with one device (all capability slices of length 1) and `dev = 1`
the read `md.mtpb[dev]` is an out-of-range slice index — a runtime fault
(`none` in this embedding), not a safe no-op. -/
theorem elemGridSizeMeta_out_of_range_faults :
    elemGridSizeMeta [32] [1024] [64] [64] [64] 1 1 = none := rfl

/-! ## The memory arena: `memoryQueue`, `Get`, `Put` -/

/-- Opaque handle to a device-resident memory slab (`Memory`). -/
abbrev GpuMemory := Nat

/-- Modelled from the spec: the `memoryQueue` pool type (its source file is
not part of this package's core file).  The spec describes a MemoryPool as
a collection of MemoryBlocks of one size class: a block returned must be
retrievable later with membership preserved exactly, retrieval order
unspecified; FIFO is chosen here. -/
structure memoryQueue where
  size : Nat
  blocks : List GpuMemory
deriving DecidableEq, Repr

/-- Modelled from the spec: `newMemoryQueue` creates an empty pool of the
given size class. -/
def newMemoryQueue (size : Nat) : memoryQueue := ⟨size, []⟩

/-- Modelled from the spec: `add` inserts one block into the pool. -/
def memoryQueue.add (q : memoryQueue) (m : GpuMemory) : memoryQueue :=
  ⟨q.size, q.blocks ++ [m]⟩

/-- Modelled from the spec: `get` removes and returns one block, reporting
"not found" (`none`) on an empty pool. -/
def memoryQueue.pop (q : memoryQueue) : Option (GpuMemory × memoryQueue) :=
  match q.blocks with
  | [] => none
  | b :: rest => some (b, ⟨q.size, rest⟩)

/-- Embedding of Go's `map[uint]*memoryQueue` as an association list. -/
abbrev SizeMap := List (Nat × memoryQueue)

/-- Go map lookup `m.arena[d][size]`. -/
def sizeMapLookup (mp : SizeMap) (k : Nat) : Option memoryQueue :=
  match mp with
  | [] => none
  | (k2, q) :: rest => if k2 = k then some q else sizeMapLookup rest k

/-- Go map write `m.arena[d][size] = pool` (overwrite or append). -/
def sizeMapInsert (mp : SizeMap) (k : Nat) (q : memoryQueue) : SizeMap :=
  match mp with
  | [] => [(k, q)]
  | (k2, q2) :: rest =>
      if k2 = k then (k, q) :: rest else (k2, q2) :: sizeMapInsert rest k q

/-- The arena: one entry per device; `none` is a Go nil map (reads behave
as empty, writes fault), `some mp` a made map. -/
abbrev Arena := List (Option SizeMap)

/-- Result of `ExternMetadata.Get`: a Go runtime fault (out-of-range slice
index), the advisory `noopError` ("not found"), or a block. -/
inductive GetResult where
  | fault : GetResult
  | notFound : GetResult
  | found : GpuMemory → GetResult
deriving DecidableEq, Repr

/-- Result of `ExternMetadata.Put`: a Go runtime fault or a silent return. -/
inductive PutResult where
  | fault : PutResult
  | done : PutResult
deriving DecidableEq, Repr

/-- Embedding of `ExternMetadata.Get`: `d := int(dev)`; if
`d >= len(m.arena)` it returns `noopError`; otherwise `m.arena[d][size]`
is read — a negative `d` is an out-of-range slice index (fault); on a hit
`pool.get()` removes one block (the mutation of the shared `*memoryQueue`
is reflected by writing the shrunk pool back at the same key), and on an
empty pool it reports `noopError`. -/
def arenaGet (arena : Arena) (dev : Int) (size : Nat) : GetResult × Arena :=
  if (arena.length : Int) ≤ dev then (.notFound, arena)
  else if dev < 0 then (.fault, arena)
  else
    match arena.get? dev.toNat with
    | none => (.fault, arena)
    | some none => (.notFound, arena)
    | some (some mp) =>
      match sizeMapLookup mp size with
      | none => (.notFound, arena)
      | some pool =>
        match pool.pop with
        | none => (.notFound, arena)
        | some (blk, pool2) =>
            (.found blk, arena.set dev.toNat (some (sizeMapInsert mp size pool2)))

/-- Embedding of `ExternMetadata.Put`: `d := int(dev)`; if
`d >= len(m.arena)` it silently returns; otherwise `m.arena[d][size]` is
read — a negative `d` is an out-of-range slice index (fault); if no pool
exists one is created and written into the map (a fault if the device's
map is nil), and the block is added to the pool. -/
def arenaPut (arena : Arena) (dev : Int) (mem : GpuMemory) (size : Nat) :
    PutResult × Arena :=
  if (arena.length : Int) ≤ dev then (.done, arena)
  else if dev < 0 then (.fault, arena)
  else
    match arena.get? dev.toNat with
    | none => (.fault, arena)
    | some none => (.fault, arena)
    | some (some mp) =>
      match sizeMapLookup mp size with
      | some pool =>
          (.done, arena.set dev.toNat (some (sizeMapInsert mp size (pool.add mem))))
      | none =>
          (.done, arena.set dev.toNat
            (some (sizeMapInsert mp size ((newMemoryQueue size).add mem))))

/-- Pool stored for `(d, size)`, if any. -/
def arenaLookupPool (arena : Arena) (d size : Nat) : Option memoryQueue :=
  match arena.get? d with
  | some (some mp) => sizeMapLookup mp size
  | _ => none

theorem sizeMapLookup_insert (mp : SizeMap) (k : Nat) (q : memoryQueue) :
    sizeMapLookup (sizeMapInsert mp k q) k = some q := by
  induction mp with
  | nil => simp [sizeMapInsert, sizeMapLookup]
  | cons hd tl ih =>
    obtain ⟨k2, q2⟩ := hd
    by_cases h : k2 = k
    · simp [sizeMapInsert, h, sizeMapLookup]
    · simp [sizeMapInsert, h, sizeMapLookup, ih]

theorem get?_some_lt_length {α : Type} {l : List α} {n : Nat} {a : α}
    (h : l.get? n = some a) : n < l.length := by
  by_contra hc
  rw [List.get?_eq_none.2 (by omega)] at h
  simp at h

/-- C5: `Get` with `d ≥ deviceCount`, or on a device whose size map has no
entry (including a nil map), or on an empty pool, returns the advisory
"not found" sentinel without a fault and without mutating the arena; and
`Put` with `d ≥ deviceCount` is a silent no-op leaving the arena
unchanged. -/
theorem arenaGetPut_safe
    (arenaA : Arena) (devA : Int) (sizeA : Nat) (memA : GpuMemory)
    (hA : (arenaA.length : Int) ≤ devA)
    (arenaB : Arena) (dB sizeB : Nat) (mpB : SizeMap)
    (hB1 : arenaB.get? dB = some (some mpB))
    (hB2 : sizeMapLookup mpB sizeB = none)
    (arenaC : Arena) (dC sizeC : Nat)
    (hC : arenaC.get? dC = some none)
    (arenaD : Arena) (dD sizeD szD : Nat) (mpD : SizeMap)
    (hD1 : arenaD.get? dD = some (some mpD))
    (hD2 : sizeMapLookup mpD sizeD = some ⟨szD, []⟩) :
    arenaGet arenaA devA sizeA = (.notFound, arenaA) ∧
    arenaPut arenaA devA memA sizeA = (.done, arenaA) ∧
    arenaGet arenaB (dB : Int) sizeB = (.notFound, arenaB) ∧
    arenaGet arenaC (dC : Int) sizeC = (.notFound, arenaC) ∧
    arenaGet arenaD (dD : Int) sizeD = (.notFound, arenaD) := by
  refine ⟨?_, ?_, ?_, ?_, ?_⟩
  · unfold arenaGet; rw [if_pos hA]
  · unfold arenaPut; rw [if_pos hA]
  · have hdlt : dB < arenaB.length := get?_some_lt_length hB1
    unfold arenaGet
    rw [if_neg (by exact_mod_cast Nat.not_le.2 hdlt), if_neg (by omega),
      Int.toNat_natCast, hB1]
    simp [hB2]
  · have hdlt : dC < arenaC.length := get?_some_lt_length hC
    unfold arenaGet
    rw [if_neg (by exact_mod_cast Nat.not_le.2 hdlt), if_neg (by omega),
      Int.toNat_natCast, hC]
  · have hdlt : dD < arenaD.length := get?_some_lt_length hD1
    unfold arenaGet
    rw [if_neg (by exact_mod_cast Nat.not_le.2 hdlt), if_neg (by omega),
      Int.toNat_natCast, hD1]
    simp [hD2, memoryQueue.pop]

/-- C5 witness: the five scenarios at concrete inputs — an empty arena with
`dev = 0`, a device with an empty size map, a device with a nil map, and a
device whose pool for the requested size is empty. -/
theorem arenaGetPut_safe_witness :
    arenaGet [] 0 1 = (.notFound, []) ∧
    arenaPut [] 0 5 1 = (.done, []) ∧
    arenaGet [some []] (0 : Nat) 3 = (.notFound, [some []]) ∧
    arenaGet [none] (0 : Nat) 2 = (.notFound, [none]) ∧
    arenaGet [some [(4, ⟨4, []⟩)]] (0 : Nat) 4 =
      (.notFound, [some [(4, ⟨4, []⟩)]]) :=
  arenaGetPut_safe [] 0 1 5 (by decide)
    [some []] 0 3 [] (by decide) (by decide)
    [none] 0 2 (by decide)
    [some [(4, ⟨4, []⟩)]] 0 4 4 [(4, ⟨4, []⟩)] (by decide) (by decide)

/-- C10: the arena guard checks only the upper bound, so for a negative
device identifier (with at least one device) both `Get` and `Put` reach
the slice indexing `m.arena[d]` with a negative index — a runtime fault,
not a safe no-op. -/
theorem arenaGetPut_negative_device_faults
    (arena : Arena) (dev : Int) (size : Nat) (mem : GpuMemory)
    (hneg : dev < 0) (hcnt : 1 ≤ arena.length) :
    arenaGet arena dev size = (.fault, arena) ∧
    arenaPut arena dev mem size = (.fault, arena) := by
  constructor
  · unfold arenaGet
    rw [if_neg (by omega), if_pos hneg]
  · unfold arenaPut
    rw [if_neg (by omega), if_pos hneg]

/-- C10 witness: with one device and `dev = -1`, both `Get` and `Put`
fault. -/
theorem arenaGetPut_negative_device_faults_witness :
    arenaGet [some []] (-1) 8 = (.fault, [some []]) ∧
    arenaPut [some []] (-1) 9 8 = (.fault, [some []]) :=
  arenaGetPut_negative_device_faults [some []] (-1) 8 9 (by decide) (by decide)

/-- C7: for an in-range device `d` with a made size map and a previously
unseen size class `size`, `Put(d, blk, size)` creates the pool holding
exactly `blk`; a following `Get(d, size)` returns `blk`; and a second
`Put` for the same `(d, size)` reuses the existing pool (the pool ends as
`[blk, blk2]`, not a freshly created `[blk2]`). -/
theorem arenaPutGet_roundtrip
    (arena : Arena) (d size : Nat) (blk blk2 : GpuMemory) (mp : SizeMap)
    (hd : arena.get? d = some (some mp))
    (hunseen : sizeMapLookup mp size = none) :
    (arenaPut arena (d : Int) blk size).fst = .done ∧
    arenaLookupPool (arenaPut arena (d : Int) blk size).snd d size =
      some ⟨size, [blk]⟩ ∧
    (arenaGet (arenaPut arena (d : Int) blk size).snd (d : Int) size).fst =
      .found blk ∧
    arenaLookupPool
      (arenaPut (arenaPut arena (d : Int) blk size).snd (d : Int) blk2 size).snd
      d size = some ⟨size, [blk, blk2]⟩ := by
  have hdlt : d < arena.length := get?_some_lt_length hd
  have hput1 : arenaPut arena (d : Int) blk size =
      (.done, arena.set d (some (sizeMapInsert mp size ⟨size, [blk]⟩))) := by
    unfold arenaPut
    rw [if_neg (by exact_mod_cast Nat.not_le.2 hdlt), if_neg (by omega),
      Int.toNat_natCast, hd]
    simp [hunseen, newMemoryQueue, memoryQueue.add]
  have hget1 : (arena.set d (some (sizeMapInsert mp size ⟨size, [blk]⟩))).get? d =
      some (some (sizeMapInsert mp size ⟨size, [blk]⟩)) :=
    List.get?_set_eq_of_lt _ hdlt
  have hlen1 : (arena.set d (some (sizeMapInsert mp size ⟨size, [blk]⟩))).length =
      arena.length := List.length_set _ _ _
  have hlk1 : sizeMapLookup (sizeMapInsert mp size ⟨size, [blk]⟩) size =
      some ⟨size, [blk]⟩ := sizeMapLookup_insert mp size _
  refine ⟨?_, ?_, ?_, ?_⟩
  · rw [hput1]
  · rw [hput1]
    unfold arenaLookupPool
    rw [hget1]
    exact hlk1
  · rw [hput1]
    unfold arenaGet
    rw [if_neg (by rw [hlen1]; exact_mod_cast Nat.not_le.2 hdlt),
      if_neg (by omega), Int.toNat_natCast, hget1]
    simp [hlk1, memoryQueue.pop]
  · rw [hput1]
    have hput2 : arenaPut (arena.set d (some (sizeMapInsert mp size ⟨size, [blk]⟩)))
        (d : Int) blk2 size =
        (.done, (arena.set d (some (sizeMapInsert mp size ⟨size, [blk]⟩))).set d
          (some (sizeMapInsert (sizeMapInsert mp size ⟨size, [blk]⟩) size
            ⟨size, [blk, blk2]⟩))) := by
      unfold arenaPut
      rw [if_neg (by rw [hlen1]; exact_mod_cast Nat.not_le.2 hdlt),
        if_neg (by omega), Int.toNat_natCast, hget1]
      simp [hlk1, memoryQueue.add]
    rw [hput2]
    unfold arenaLookupPool
    rw [List.get?_set_eq_of_lt _ (by rw [hlen1]; exact hdlt)]
    exact sizeMapLookup_insert _ size _

/-- C7 witness: on a one-device arena with a made, empty size map, putting
block `1` at size `4` then getting size `4` returns `1`, and a second put
of block `2` extends the same pool to `[1, 2]`. -/
theorem arenaPutGet_roundtrip_witness :
    (arenaPut [some []] ((0 : Nat) : Int) 1 4).fst = .done ∧
    arenaLookupPool (arenaPut [some []] ((0 : Nat) : Int) 1 4).snd 0 4 =
      some ⟨4, [1]⟩ ∧
    (arenaGet (arenaPut [some []] ((0 : Nat) : Int) 1 4).snd ((0 : Nat) : Int) 4).fst =
      .found 1 ∧
    arenaLookupPool
      (arenaPut (arenaPut [some []] ((0 : Nat) : Int) 1 4).snd ((0 : Nat) : Int) 2 4).snd
      0 4 = some ⟨4, [1, 2]⟩ :=
  arenaPutGet_roundtrip [some []] 0 4 1 2 [] (by decide) (by decide)

/-! ## `DoWork`: flushing batched calls -/

/-- One device's `cu.BatchedContext`, as `DoWork` consumes it: whether its
`DoWork()` flush has been invoked, and the aggregated error its `Errors()`
reports after a flush. -/
structure BatchedContext where
  flushed : Bool
  errsAfter : Option Nat
deriving DecidableEq, Repr

/-- The fields of `ExternMetadata` that `DoWork` touches. -/
structure WorkState where
  hasWork : List Bool
  c : List BatchedContext
  blasHasWork : Bool
  blasFlushed : Bool
deriving DecidableEq, Repr

/-- `m.c[i].DoWork()`: mark context `i` flushed. -/
def flushCtx (cs : List BatchedContext) (i : Nat) : List BatchedContext :=
  match cs.get? i with
  | some ctx => cs.set i { ctx with flushed := true }
  | none => cs

/-- `m.c[i].Errors()`. -/
def ctxErrors (cs : List BatchedContext) (i : Nat) : Option Nat :=
  match cs.get? i with
  | some ctx => ctx.errsAfter
  | none => none

/-- The loop body of `ExternMetadata.DoWork` over the remaining device
indices: for each `i` with `hasWork[i]`, flush `c[i]`, return early on an
error from `Errors()`, otherwise clear `hasWork[i]`; after the loop, flush
the BLAS backend if `blasHasWork`. -/
def doWorkLoop (s : WorkState) : List Nat → Option Nat × WorkState
  | [] =>
    if s.blasHasWork then
      (none, { s with blasFlushed := true, blasHasWork := false })
    else (none, s)
  | i :: rest =>
    if s.hasWork.get? i = some true then
      let s1 : WorkState := { s with c := flushCtx s.c i }
      match ctxErrors s1.c i with
      | some e => (some e, s1)
      | none => doWorkLoop { s1 with hasWork := s1.hasWork.set i false } rest
    else doWorkLoop s rest

/-- Embedding of `ExternMetadata.DoWork`: `for i, hw := range m.hasWork`. -/
def doWork (s : WorkState) : Option Nat × WorkState :=
  doWorkLoop s (List.range s.hasWork.length)

theorem flushCtx_length (cs : List BatchedContext) (i : Nat) :
    (flushCtx cs i).length = cs.length := by
  unfold flushCtx
  cases hcs : cs.get? i with
  | none => rfl
  | some ctx => simp

theorem flushCtx_get?_ne (cs : List BatchedContext) {i j : Nat} (h : i ≠ j) :
    (flushCtx cs i).get? j = cs.get? j := by
  unfold flushCtx
  cases hcs : cs.get? i with
  | none => rfl
  | some ctx => exact List.get?_set_ne _ _ h

theorem flushCtx_get?_self (cs : List BatchedContext) (i : Nat) :
    (flushCtx cs i).get? i =
      (cs.get? i).map (fun ctx => { ctx with flushed := true }) := by
  unfold flushCtx
  cases hcs : cs.get? i with
  | none => rw [hcs]; rfl
  | some ctx =>
    have hlt : i < cs.length := get?_some_lt_length hcs
    simp [hcs, List.getElem?_set_eq_of_lt _ hlt]

theorem ctxErrors_flushCtx_self (cs : List BatchedContext) (i : Nat) :
    ctxErrors (flushCtx cs i) i = ctxErrors cs i := by
  unfold ctxErrors
  rw [flushCtx_get?_self]
  cases cs.get? i <;> rfl

theorem ctxErrors_flushCtx_ne (cs : List BatchedContext) {i j : Nat} (h : i ≠ j) :
    ctxErrors (flushCtx cs i) j = ctxErrors cs j := by
  unfold ctxErrors
  rw [flushCtx_get?_ne _ h]

theorem doWorkLoop_at_error (k e : Nat) (s : WorkState)
    (hk : k < s.hasWork.length)
    (hwk : s.hasWork.get? k = some true) (herr : ctxErrors s.c k = some e) :
    doWorkLoop s (List.range' k (s.hasWork.length - k)) =
      (some e, { s with c := flushCtx s.c k }) := by
  obtain ⟨m, hm⟩ : ∃ m, s.hasWork.length - k = m + 1 :=
    ⟨s.hasWork.length - k - 1, by omega⟩
  rw [hm]
  simp only [List.range']
  simp only [doWorkLoop]
  rw [if_pos hwk]
  have herrA : ctxErrors (flushCtx s.c k) k = some e :=
    (ctxErrors_flushCtx_self s.c k).trans herr
  simp [herrA]

theorem doWorkLoop_first_error (k e : Nat) :
    ∀ (fuel a : Nat) (s : WorkState), k - a ≤ fuel → a ≤ k →
      k < s.hasWork.length → s.c.length = s.hasWork.length →
      s.hasWork.get? k = some true → ctxErrors s.c k = some e →
      (∀ j, a ≤ j → j < k → s.hasWork.get? j = some true → ctxErrors s.c j = none) →
      ∃ r, doWorkLoop s (List.range' a (s.hasWork.length - a)) = (some e, r) ∧
        (∀ j, k ≤ j → r.hasWork.get? j = s.hasWork.get? j) ∧
        (∀ j, k < j → r.c.get? j = s.c.get? j) ∧
        r.c.get? k = (s.c.get? k).map (fun ctx => { ctx with flushed := true }) ∧
        r.blasHasWork = s.blasHasWork ∧ r.blasFlushed = s.blasFlushed := by
  intro fuel
  induction fuel with
  | zero =>
    intro a s hfuel ha hk hlen hwk herr _hbefore
    have hak : a = k := by omega
    subst hak
    exact ⟨{ s with c := flushCtx s.c a }, doWorkLoop_at_error a e s hk hwk herr,
      fun j _ => rfl, fun j hj => flushCtx_get?_ne s.c (by omega),
      flushCtx_get?_self s.c a, rfl, rfl⟩
  | succ fuel ih =>
    intro a s hfuel ha hk hlen hwk herr hbefore
    rcases eq_or_lt_of_le ha with hak | halt
    · subst hak
      exact ⟨{ s with c := flushCtx s.c a }, doWorkLoop_at_error a e s hk hwk herr,
        fun j _ => rfl, fun j hj => flushCtx_get?_ne s.c (by omega),
        flushCtx_get?_self s.c a, rfl, rfl⟩
    · have hm : s.hasWork.length - a = (s.hasWork.length - (a + 1)) + 1 := by omega
      rw [hm]
      simp only [List.range']
      simp only [doWorkLoop]
      have hkna : a ≠ k := by omega
      by_cases hwa : s.hasWork.get? a = some true
      · rw [if_pos hwa]
        have herrA : ctxErrors (flushCtx s.c a) a = none :=
          (ctxErrors_flushCtx_self s.c a).trans (hbefore a (le_refl a) halt hwa)
        simp only [herrA]
        obtain ⟨r, hr, hrw, hrc, hrk, hrb1, hrb2⟩ :=
          ih (a + 1)
            { hasWork := s.hasWork.set a false, c := flushCtx s.c a,
              blasHasWork := s.blasHasWork, blasFlushed := s.blasFlushed }
            (by omega) (by omega)
            (by simpa using hk)
            (by simpa [flushCtx_length] using hlen)
            (by simpa [List.getElem?_set_ne hkna] using hwk)
            (by simpa [ctxErrors_flushCtx_ne s.c hkna] using herr)
            (fun j hj1 hj2 hj3 => by
              have hja : a ≠ j := by omega
              have hj4 : (s.hasWork.set a false).get? j = some true := hj3
              rw [List.get?_set_ne _ _ hja] at hj4
              show ctxErrors (flushCtx s.c a) j = none
              rw [ctxErrors_flushCtx_ne s.c hja]
              exact hbefore j (by omega) hj2 hj4)
        rw [List.length_set] at hr
        refine ⟨r, hr, ?_, ?_, ?_, hrb1, hrb2⟩
        · intro j hj
          have h1 : r.hasWork.get? j = (s.hasWork.set a false).get? j := hrw j hj
          rw [h1, List.get?_set_ne _ _ (by omega : a ≠ j)]
        · intro j hj
          have h1 : r.c.get? j = (flushCtx s.c a).get? j := hrc j hj
          rw [h1, flushCtx_get?_ne s.c (by omega : a ≠ j)]
        · have h1 : r.c.get? k =
              ((flushCtx s.c a).get? k).map (fun ctx => { ctx with flushed := true }) := hrk
          rw [h1, flushCtx_get?_ne s.c hkna]
      · rw [if_neg hwa]
        exact ih (a + 1) s (by omega) (by omega) hk hlen hwk herr
          (fun j hj1 hj2 hj3 => hbefore j (by omega) hj2 hj3)

/-- C6 (amended): if the flush of device `k` is the first one to report an
error, `DoWork` returns that error immediately; device `k` and every later
device keep their `hasWork` flag; devices after `k` are untouched
(contexts unflushed); the BLAS flag and backend are untouched — but device
`k`'s own context HAS had its `DoWork()` flush invoked (that flush is what
produced the error), so only the devices strictly after `k` are left
unflushed. -/
theorem doWork_error_aborts (s : WorkState) (k e : Nat)
    (hlen : s.c.length = s.hasWork.length)
    (hwk : s.hasWork.get? k = some true)
    (herr : ctxErrors s.c k = some e)
    (hbefore : ∀ j, j < k → s.hasWork.get? j = some true → ctxErrors s.c j = none) :
    (doWork s).fst = some e ∧
    (∀ j, k ≤ j → (doWork s).snd.hasWork.get? j = s.hasWork.get? j) ∧
    (∀ j, k < j → (doWork s).snd.c.get? j = s.c.get? j) ∧
    (doWork s).snd.c.get? k =
      (s.c.get? k).map (fun ctx => { ctx with flushed := true }) ∧
    (doWork s).snd.blasHasWork = s.blasHasWork ∧
    (doWork s).snd.blasFlushed = s.blasFlushed := by
  have hk : k < s.hasWork.length := get?_some_lt_length hwk
  obtain ⟨r, hr, hrw, hrc, hrk, hrb1, hrb2⟩ :=
    doWorkLoop_first_error k e k 0 s (by omega) (Nat.zero_le k) hk hlen hwk herr
      (fun j _ hj2 hj3 => hbefore j hj2 hj3)
  have hdw : doWork s = (some e, r) := by
    rw [doWork, List.range_eq_range']
    rw [show List.range' 0 s.hasWork.length =
      List.range' 0 (s.hasWork.length - 0) from by rw [Nat.sub_zero]]
    exact hr
  rw [hdw]
  exact ⟨rfl, hrw, hrc, hrk, hrb1, hrb2⟩

/-- C6 counterexample: one device with pending work whose flush reports
error `7`.  `DoWork` returns the error, but the device's context has been
flushed (`DoWork()` was invoked on it), contradicting the claim that
device `k` itself is left with its context unflushed. -/
def oneFailingDevice : WorkState :=
  { hasWork := [true], c := [{ flushed := false, errsAfter := some 7 }],
    blasHasWork := false, blasFlushed := false }

theorem doWork_error_counterexample :
    (doWork oneFailingDevice).fst = some 7 ∧
    (doWork oneFailingDevice).snd.c = [{ flushed := true, errsAfter := some 7 }] := by
  decide

/-- C6 witness: two devices both with pending work, the second one's flush
failing with error `7` while the BLAS backend also has work; the theorem
yields the early error return, the still-set flag of device `1`, and the
untouched BLAS backend. -/
def secondDeviceFailing : WorkState :=
  { hasWork := [true, true],
    c := [{ flushed := false, errsAfter := none },
          { flushed := false, errsAfter := some 7 }],
    blasHasWork := true, blasFlushed := false }

theorem doWork_error_aborts_witness :
    (doWork secondDeviceFailing).fst = some 7 ∧
    (doWork secondDeviceFailing).snd.hasWork.get? 1 = some true ∧
    (doWork secondDeviceFailing).snd.blasFlushed = false := by
  have h := doWork_error_aborts secondDeviceFailing
    1 7 (by decide) (by decide) (by decide)
    (by decide)
  refine ⟨h.1, ?_, h.2.2.2.2.2⟩
  rw [h.2.1 1 (le_refl 1)]
  decide

/-! ## The kernel-source registry: `cudaStdLib` and `AddToStdLib` -/

/-- The process-wide `cudaStdLib` registry, a Go `map[string]string`,
embedded as a total lookup function.  Modelled from the spec: the map's
initialization is performed by generated loader code outside this file
(`go:generate cudagen`); the spec describes the registry as a mapping from
symbolic kernel name to kernel source text, mutated by a single
registration call. -/
abbrev CudaStdLib := String → Option String

/-- Embedding of `AddToStdLib`: `cudaStdLib[name] = data`, the single
registration call, acting on the registry state. -/
def AddToStdLib (lib : CudaStdLib) (name data : String) : CudaStdLib :=
  fun k => if k = name then some data else lib k

/-- C8: registering a kernel source via `AddToStdLib(name, data)` succeeds
for every prior registry state, name and data, and the registry afterwards
maps `name` to `data` (and leaves every other name unchanged). -/
theorem AddToStdLib_registers (lib : CudaStdLib) (name data : String) :
    AddToStdLib lib name data name = some data ∧
    ∀ k, k ≠ name → AddToStdLib lib name data k = lib k := by
  constructor
  · simp [AddToStdLib]
  · intro k hk
    simp [AddToStdLib, hk]

/-- C8 witness: registering "gemm" in an empty registry makes the registry
map "gemm" to its source text and leaves another name unmapped. -/
theorem AddToStdLib_registers_witness :
    AddToStdLib (fun _ => none) "gemm" "kernel-src" "gemm" = some "kernel-src" ∧
    AddToStdLib (fun _ => none) "gemm" "kernel-src" "axpy" = none :=
  ⟨(AddToStdLib_registers (fun _ => none) "gemm" "kernel-src").1,
   (AddToStdLib_registers (fun _ => none) "gemm" "kernel-src").2 "axpy" (by decide)⟩

/-! ## Registry lifecycle: `init` and `initFail` -/

/-- The eight device attributes queried by `dev.Attributes(...)` during
`init()`. -/
structure DevAttrs where
  warp : Nat
  mtpb : Nat
  mgdx : Nat
  mgdy : Nat
  mgdz : Nat
  mbdx : Nat
  mbdy : Nat
  mbdz : Nat
deriving DecidableEq, Repr

/-- The external CUDA driver interface consumed by `init()`, as an oracle:
whether `cu.NumDevices` succeeds and its result, and per device whether
`cu.GetDevice`, `dev.MakeContext`, `dev.Attributes` and `cu.MemInfo`
succeed (`none`/`false` models the call returning an error). -/
structure CuEnv where
  numDevices : Option Nat
  getDevice : Nat → Bool
  makeContext : Nat → Bool
  attributes : Nat → Option DevAttrs
  memInfo : Nat → Option (Int × Int)

/-- The fields of `ExternMetadata` that the registry lifecycle touches.
`c` is `none` when the Go slice is nil; a context slot is `some i` once
`cu.NewBatchedContext` has been stored for device `i`.  The shared
channel is modelled by two facts: whether the `workAvailable` field is
non-nil (`workAvailableSet`) and whether the channel object created by
`init()` has been closed (`chanClosed`).  `m`/`f` are the module and
function tables (contents irrelevant to the lifecycle, only nil-ness
matters); `initialzed` keeps the source's spelling. -/
structure EM where
  warp : List Nat
  mtpb : List Nat
  mgdx : List Nat
  mgdy : List Nat
  mgdz : List Nat
  mbdx : List Nat
  mbdy : List Nat
  mbdz : List Nat
  freeMem : List Int
  totalMem : List Int
  arena : List (Option SizeMap)
  c : Option (List (Option Nat))
  hasWork : List Bool
  workAvailableSet : Bool
  chanClosed : Bool
  m : Option Unit
  f : Option Unit
  blasHasWork : Bool
  initialzed : Bool
deriving DecidableEq, Repr

/-- Embedding of `ExternMetadata.initFail`: nil out `c`, `m` and `f`,
close the shared channel if the field is non-nil, then nil the field. -/
def initFail (md : EM) : EM :=
  { md with
    c := none, m := none, f := none,
    chanClosed := if md.workAvailableSet then true else md.chanClosed,
    workAvailableSet := false }

/-- One iteration of the device loop in `init()`: `cu.GetDevice(i)`,
`dev.MakeContext(...)` (an out-of-memory failure only logs extra detail
before the same `initFail` path), `dev.Attributes(...)`, `cu.MemInfo()`;
on success the capability profile, memory stats, arena map and context
slot of device `i` are populated (the `collectWork` relay task the source
then spawns is concurrency, treated separately).  `none` means the
iteration hit a failure and `init` will call `initFail` and return. -/
def initDevice (env : CuEnv) (md : EM) (i : Nat) : Option EM :=
  if env.getDevice i = false then none
  else if env.makeContext i = false then none
  else
    match env.attributes i with
    | none => none
    | some attrs =>
      match env.memInfo i with
      | none => none
      | some fr =>
        some { md with
          warp := md.warp.set i attrs.warp,
          mtpb := md.mtpb.set i attrs.mtpb,
          mgdx := md.mgdx.set i attrs.mgdx,
          mgdy := md.mgdy.set i attrs.mgdy,
          mgdz := md.mgdz.set i attrs.mgdz,
          mbdx := md.mbdx.set i attrs.mbdx,
          mbdy := md.mbdy.set i attrs.mbdy,
          mbdz := md.mbdz.set i attrs.mbdz,
          freeMem := md.freeMem.set i fr.fst,
          totalMem := md.totalMem.set i fr.snd,
          arena := md.arena.set i (some []),
          c := (md.c).map (fun cs => cs.set i (some i)) }

/-- The device loop of `init()`: process each device index in order; on
the first failing device, call `initFail` and stop (`false` marks the
early return). -/
def initLoop (env : CuEnv) : List Nat → EM → Bool × EM
  | [], md => (true, md)
  | i :: rest, md =>
    match initDevice env md i with
    | none => (false, initFail md)
    | some md2 => initLoop env rest md2

/-- The per-device array allocations of `init()` (`make(chan struct)`,
`make([]...)` sized to the device count): the shared channel is created
(field set, channel open), and every per-device slice is filled with its
zero value (`nil` maps for the arena). -/
def initAlloc (md : EM) (devices : Nat) : EM :=
  { md with
    workAvailableSet := true, chanClosed := false,
    c := some (List.replicate devices none),
    hasWork := List.replicate devices false,
    warp := List.replicate devices 0,
    mtpb := List.replicate devices 0,
    mgdx := List.replicate devices 0,
    mgdy := List.replicate devices 0,
    mgdz := List.replicate devices 0,
    mbdx := List.replicate devices 0,
    mbdy := List.replicate devices 0,
    mbdz := List.replicate devices 0,
    freeMem := List.replicate devices 0,
    totalMem := List.replicate devices 0,
    arena := List.replicate devices none }

/-- Embedding of `ExternMetadata.init`: no-op when already initialized or
when `cu.NumDevices` fails or reports zero devices; otherwise allocate the
per-device arrays, make the shared channel, run the device loop, and on
full success select device 0 (`SetCurrent`, an external call with no
registry-state effect), allocate the module/function tables and set the
`initialzed` flag.  An early `initFail` return leaves the loop's failure
state as the final state. -/
def initEM (env : CuEnv) (md : EM) : EM :=
  if md.initialzed then md
  else
    match env.numDevices with
    | none => md
    | some devices =>
      if devices = 0 then md
      else
        match initLoop env (List.range devices) (initAlloc md devices) with
        | (false, md2) => md2
        | (true, md2) => { md2 with m := some (), f := some (), initialzed := true }

/-- The zero value of `ExternMetadata`, the state before any `init()`. -/
def emZero : EM :=
  { warp := [], mtpb := [], mgdx := [], mgdy := [], mgdz := [],
    mbdx := [], mbdy := [], mbdz := [], freeMem := [], totalMem := [],
    arena := [], c := none, hasWork := [], workAvailableSet := false,
    chanClosed := false, m := none, f := none, blasHasWork := false,
    initialzed := false }

/-- Device `i` fails one of the four probing steps of `init()`. -/
def devFails (env : CuEnv) (i : Nat) : Prop :=
  env.getDevice i = false ∨ env.makeContext i = false ∨
    env.attributes i = none ∨ env.memInfo i = none

instance (env : CuEnv) (i : Nat) : Decidable (devFails env i) := by
  unfold devFails
  infer_instance

theorem initDevice_none_of_fails (env : CuEnv) (md : EM) (i : Nat)
    (h : devFails env i) : initDevice env md i = none := by
  unfold devFails at h
  by_cases h1 : env.getDevice i = false
  · simp [initDevice, h1]
  · by_cases h2 : env.makeContext i = false
    · simp [initDevice, h1, h2]
    · by_cases h3 : env.attributes i = none
      · simp [initDevice, h1, h2, h3]
      · have h4 : env.memInfo i = none := by
          rcases h with h | h | h | h
          · exact absurd h h1
          · exact absurd h h2
          · exact absurd h h3
          · exact h
        obtain ⟨attrs, ha⟩ := Option.ne_none_iff_exists'.mp h3
        simp [initDevice, h1, h2, ha, h4]

theorem initDevice_isSome_of_not_fails (env : CuEnv) (md : EM) (i : Nat)
    (h : ¬ devFails env i) : (initDevice env md i).isSome := by
  unfold devFails at h
  push_neg at h
  obtain ⟨h1, h2, h3, h4⟩ := h
  obtain ⟨attrs, ha⟩ := Option.ne_none_iff_exists'.mp h3
  obtain ⟨fr, hf⟩ := Option.ne_none_iff_exists'.mp h4
  simp [initDevice, h1, h2, ha, hf]

theorem initDevice_preserves (env : CuEnv) (md md2 : EM) (i : Nat)
    (h : initDevice env md i = some md2) :
    md2.workAvailableSet = md.workAvailableSet ∧
    md2.chanClosed = md.chanClosed ∧ md2.initialzed = md.initialzed := by
  unfold initDevice at h
  by_cases h1 : env.getDevice i = false
  · simp [h1] at h
  · by_cases h2 : env.makeContext i = false
    · simp [h1, h2] at h
    · rw [if_neg h1, if_neg h2] at h
      cases ha : env.attributes i with
      | none => rw [ha] at h; simp at h
      | some attrs =>
        rw [ha] at h
        cases hf : env.memInfo i with
        | none => rw [hf] at h; simp at h
        | some fr =>
          rw [hf] at h
          injection h with h
          subst h
          exact ⟨rfl, rfl, rfl⟩

theorem initLoop_fail_of_first (env : CuEnv) (k : Nat) (hk : devFails env k) :
    ∀ (l1 : List Nat) (l2 : List Nat) (md : EM), (∀ j ∈ l1, ¬ devFails env j) →
      ∃ md2, initLoop env (l1 ++ k :: l2) md = (false, initFail md2) ∧
        md2.workAvailableSet = md.workAvailableSet ∧
        md2.chanClosed = md.chanClosed ∧ md2.initialzed = md.initialzed := by
  intro l1
  induction l1 with
  | nil =>
    intro l2 md _
    refine ⟨md, ?_, rfl, rfl, rfl⟩
    simp only [List.nil_append, initLoop, initDevice_none_of_fails env md k hk]
  | cons a l1 ih =>
    intro l2 md hok
    have hNa : ¬ devFails env a := hok a (by simp)
    obtain ⟨md2, hmd2⟩ :=
      Option.isSome_iff_exists.mp (initDevice_isSome_of_not_fails env md a hNa)
    obtain ⟨p1, p2, p3⟩ := initDevice_preserves env md md2 a hmd2
    obtain ⟨md3, h3, q1, q2, q3⟩ := ih l2 md2 (fun j hj => hok j (by simp [hj]))
    refine ⟨md3, ?_, q1.trans p1, q2.trans p2, q3.trans p3⟩
    simp only [List.cons_append, initLoop, hmd2]
    exact h3

/-- C2 (amended): if device `k` (of `m ≥ 2` total, `k < m`, devices before
`k` probing successfully) fails during `init()` starting from the zero
registry state, then `init` ends with no contexts (`c` nil), module and
function tables nil, the shared work-available channel closed (and its
field nil), and the initialized flag still false — so there is never a
partial set of `m - 1` usable devices.  However, the per-device capability
arrays and arena maps populated for devices before `k` are NOT cleared by
`initFail`; only the counterexample-forced part of the claim ("no
capability profiles populated", "no partially populated per-device
state") is dropped. -/
theorem init_all_or_nothing (env : CuEnv) (mdevs k : Nat)
    (hnum : env.numDevices = some mdevs) (hm2 : 2 ≤ mdevs) (hk : k < mdevs)
    (hfail : devFails env k) (hpre : ∀ j, j < k → ¬ devFails env j) :
    (initEM env emZero).c = none ∧
    (initEM env emZero).m = none ∧
    (initEM env emZero).f = none ∧
    (initEM env emZero).chanClosed = true ∧
    (initEM env emZero).workAvailableSet = false ∧
    (initEM env emZero).initialzed = false := by
  have hsplit : List.range mdevs =
      List.range k ++ k :: List.range' (k + 1) (mdevs - k - 1) := by
    rw [List.range_eq_range', List.range_eq_range']
    have e2 : List.range' k (mdevs - k) =
        k :: List.range' (k + 1) (mdevs - k - 1) := by
      have h2 : mdevs - k = (mdevs - k - 1) + 1 := by omega
      conv_lhs => rw [h2]
      rw [List.range'_succ]
    calc List.range' 0 mdevs
        = List.range' 0 (mdevs - k + k) := by congr 1; omega
      _ = List.range' 0 k ++ List.range' (0 + k) (mdevs - k) :=
          (List.range'_append_1 0 k (mdevs - k)).symm
      _ = List.range' 0 k ++ k :: List.range' (k + 1) (mdevs - k - 1) := by
          rw [Nat.zero_add, e2]
  obtain ⟨md2, hloop, p1, p2, p3⟩ :=
    initLoop_fail_of_first env k hfail (List.range k)
      (List.range' (k + 1) (mdevs - k - 1)) (initAlloc emZero mdevs)
      (fun j hj => hpre j (List.mem_range.mp hj))
  rw [← hsplit] at hloop
  have hfinal : initEM env emZero = initFail md2 := by
    unfold initEM
    rw [if_neg (by decide)]
    simp only [hnum]
    rw [if_neg (by omega : ¬ mdevs = 0), hloop]
  rw [hfinal]
  refine ⟨rfl, rfl, rfl, ?_, rfl, ?_⟩
  · show (if md2.workAvailableSet then true else md2.chanClosed) = true
    rw [p1]
    rfl
  · show md2.initialzed = false
    rw [p3]
    rfl

/-- The failing-registry scenario for C2: two devices, device 0 probing
fully (warp size 3), device 1 failing at `cu.GetDevice`. -/
def c2Env : CuEnv :=
  { numDevices := some 2,
    getDevice := fun i => i == 0,
    makeContext := fun _ => true,
    attributes := fun _ => some ⟨3, 1024, 64, 64, 64, 1024, 1024, 64⟩,
    memInfo := fun _ => some (100, 200) }

/-- C2 counterexample: when device 1 of 2 fails during `init()`, the
registry does end with `c` nil and the flag false, but `initFail` does NOT
clear the capability profiles: device 0's warp size (3) is still stored
(`warp = [3, 0]`) and its arena map is still made (`arena = [some [], none]`),
so the claimed "no capability profiles populated / no partially populated
per-device state" is false. -/
theorem init_partial_profile_counterexample :
    (initEM c2Env emZero).c = none ∧
    (initEM c2Env emZero).initialzed = false ∧
    (initEM c2Env emZero).warp = [3, 0] ∧
    (initEM c2Env emZero).arena = [some [], none] := by
  decide

/-- C2 (amended) witness: the amended theorem applied to the concrete
two-device environment in which device 1 fails. -/
theorem init_all_or_nothing_witness :
    (initEM c2Env emZero).c = none ∧
    (initEM c2Env emZero).m = none ∧
    (initEM c2Env emZero).f = none ∧
    (initEM c2Env emZero).chanClosed = true ∧
    (initEM c2Env emZero).workAvailableSet = false ∧
    (initEM c2Env emZero).initialzed = false :=
  init_all_or_nothing c2Env 2 1 (by decide) (by decide) (by decide) (by decide)
    (by decide)

/-! ## The work-signal fan-in: `collectWork` -/

/-- Events of a `collectWork` relay task for one device. -/
inductive RelayEvent where
  | recv (dev : Nat)
  | setFlag (dev : Nat)
  | send (dev : Nat)
deriving DecidableEq, Repr

/-- Embedding of one iteration of the `collectWork(devID, ...)` loop, in
program order: receive a signal from the device-specific source channel
(`for range workAvailable`), set `m.hasWork[devID] = true`, then send one
signal on the shared `m.workAvailable` channel. -/
def collectWorkIter (devID : Nat) : List RelayEvent :=
  [RelayEvent.recv devID, RelayEvent.setFlag devID, RelayEvent.send devID]

/-- An interleaving of the per-task event lists: at each step one task
contributes its next event, so each task's internal program order is
preserved while tasks interleave arbitrarily. -/
inductive Interleaving : List (List RelayEvent) → List RelayEvent → Prop where
  | nil {ls : List (List RelayEvent)} (h : ∀ l ∈ ls, l = []) : Interleaving ls []
  | step {ls : List (List RelayEvent)} (i : Nat) {e : RelayEvent}
      {rest : List RelayEvent} {tr : List RelayEvent}
      (hget : ls.get? i = some (e :: rest))
      (htail : Interleaving (ls.set i rest) tr) : Interleaving ls (e :: tr)

/-- Is this event a send on the shared output channel? -/
def isSendEvent : RelayEvent → Bool
  | RelayEvent.send _ => true
  | _ => false

theorem sum_countP_set (p : RelayEvent → Bool) :
    ∀ (ls : List (List RelayEvent)) (i : Nat) (e : RelayEvent) (rest : List RelayEvent),
      ls.get? i = some (e :: rest) →
      (ls.map (fun l => l.countP p)).sum =
        ((ls.set i rest).map (fun l => l.countP p)).sum + (if p e then 1 else 0) := by
  intro ls
  induction ls with
  | nil => intro i e rest h; simp at h
  | cons hd tl ih =>
    intro i e rest h
    cases i with
    | zero =>
      rw [List.get?_cons_zero] at h
      injection h with h
      subst h
      simp only [List.set_cons_zero, List.map_cons, List.sum_cons, List.countP_cons]
      omega
    | succ n =>
      rw [List.get?_cons_succ] at h
      have hrec := ih n e rest h
      simp only [List.set_cons_succ, List.map_cons, List.sum_cons]
      omega

theorem interleaving_countP (p : RelayEvent → Bool)
    {ls : List (List RelayEvent)} {tr : List RelayEvent}
    (h : Interleaving ls tr) :
    tr.countP p = (ls.map (fun l => l.countP p)).sum := by
  induction h with
  | nil h =>
    simp only [List.countP_nil]
    symm
    apply List.sum_eq_zero
    intro x hx
    obtain ⟨l, hl, rfl⟩ := List.mem_map.mp hx
    rw [h l hl]
    simp
  | step i hget htail ih =>
    rw [List.countP_cons]
    rw [ih]
    rw [sum_countP_set p _ i _ _ hget]

theorem interleaving_sublist {ls : List (List RelayEvent)} {tr : List RelayEvent}
    (h : Interleaving ls tr) :
    ∀ i l, ls.get? i = some l → l.Sublist tr := by
  induction h with
  | nil h =>
    intro i l hl
    rw [h l (List.get?_mem hl)]
  | step i hget htail ih =>
    rename_i ls e rest tr
    intro j l hl
    by_cases hij : i = j
    · subst hij
      rw [hget] at hl
      injection hl with hl
      subst hl
      have hlt : i < ls.length := get?_some_lt_length hget
      have hrest : rest.Sublist tr := by
        apply ih i
        rw [List.get?_set_eq_of_lt _ hlt]
      exact List.Sublist.cons₂ _ hrest
    · have hrw : (ls.set i rest).get? j = ls.get? j := List.get?_set_ne _ _ hij
      exact List.Sublist.cons _ (ih j l (by rw [hrw]; exact hl))

theorem sum_map_one_range (n : Nat) :
    ((List.range n).map (fun _ => (1 : Nat))).sum = n := by
  induction n with
  | zero => rfl
  | succ n ihn =>
    rw [List.range_succ, List.map_append, List.sum_append, ihn]
    rfl

/-- C9: the fan-in is count-preserving: in any interleaved execution in
which each of `m` `collectWork` relay tasks receives and forwards exactly
one signal (one loop iteration per relay), the trace carries exactly `m`
sends on the shared `workAvailable` channel, and each relay's
`hasWork[devID] = true` write occurs before its send (the two events occur
in that order as a subsequence of the trace). -/
theorem collectWork_fan_in (mdev : Nat) (tr : List RelayEvent)
    (h : Interleaving ((List.range mdev).map collectWorkIter) tr) :
    tr.countP isSendEvent = mdev ∧
    ∀ i, i < mdev →
      List.Sublist [RelayEvent.setFlag i, RelayEvent.send i] tr := by
  constructor
  · rw [interleaving_countP isSendEvent h]
    have hmap : ((List.range mdev).map collectWorkIter).map
          (fun l => l.countP isSendEvent) =
        (List.range mdev).map (fun _ => 1) := by
      rw [List.map_map]
      apply List.map_congr_left
      intro i _
      rfl
    rw [hmap, sum_map_one_range]
  · intro i hi
    have hget : ((List.range mdev).map collectWorkIter).get? i =
        some (collectWorkIter i) := by
      rw [List.get?_map, List.get?_range hi]
      rfl
    have hsub := interleaving_sublist h i (collectWorkIter i) hget
    exact (List.Sublist.cons _ (List.Sublist.refl _)).trans hsub

/-- The concrete interleaved trace for the C9 witness: both relays
receive, then relay 1 flags and sends, then relay 0 flags and sends. -/
def fanInTrace : List RelayEvent :=
  [RelayEvent.recv 0, RelayEvent.recv 1, RelayEvent.setFlag 1,
   RelayEvent.send 1, RelayEvent.setFlag 0, RelayEvent.send 0]

/-- C9 witness: the fan-in theorem applied to a concrete interleaving of
two relays, yielding exactly two sends and the flag-before-send order for
both devices. -/
theorem collectWork_fan_in_witness :
    fanInTrace.countP isSendEvent = 2 ∧
    List.Sublist [RelayEvent.setFlag 0, RelayEvent.send 0] fanInTrace ∧
    List.Sublist [RelayEvent.setFlag 1, RelayEvent.send 1] fanInTrace := by
  have hinter : Interleaving ((List.range 2).map collectWorkIter) fanInTrace := by
    refine Interleaving.step 0 rfl ?_
    refine Interleaving.step 1 rfl ?_
    refine Interleaving.step 1 rfl ?_
    refine Interleaving.step 1 rfl ?_
    refine Interleaving.step 0 rfl ?_
    refine Interleaving.step 0 rfl ?_
    exact Interleaving.nil (by decide)
  have h := collectWork_fan_in 2 fanInTrace hinter
  exact ⟨h.1, h.2 0 (by decide), h.2 1 (by decide)⟩
